import Mathlib

/-!
Verification of the cart store of a browser commerce client.

The cart store (`CartProvider` in the source) keeps an ordered list of cart
lines, each carrying the product's fields plus a quantity, and exposes
`addToCart`, `removeFromCart`, `updateQuantity`, `clearCart`, `getCartTotal`
and `getCartItemsCount`.  It persists the cart to a key-value durable storage
under an identity-scoped key computed by `getStorageKey`, migrating a legacy
unscoped `cart` key on first load.  The checkout page clears the cart exactly
when order creation succeeds.

The embedding models the cart as `List CartLine`, durable storage as a
function from string keys to optional stored values (a stored value is either
a valid serialized snapshot or corrupt data whose parse throws), and the
operations as pure functions translated clause by clause from the source.
The `try`/`catch` blocks of the source are threaded explicitly: each primitive
that can throw (`getItem` when storage is unavailable, `setItem` when the
write fails, `JSON.parse` on corrupt data) is checked at its use site and the
surrounding function takes the catch branch from there.
-/

namespace SkCart

/-- A product descriptor as passed to `addToCart`: the product's id, the
displayed fields, and any further fields carried along by the object spread
(`{...product, quantity: 1}` in the source), modelled as an association list. -/
structure Product where
  id : String
  name : String
  price : ℚ
  imageUrl : Option String
  extra : List (String × String)
deriving DecidableEq, Repr

/-- One cart line: all the product's fields plus a quantity. -/
structure CartLine where
  id : String
  name : String
  price : ℚ
  imageUrl : Option String
  extra : List (String × String)
  quantity : Int
deriving DecidableEq, Repr

/-- The cart line created for `product` with the given quantity, corresponding
to `{...product, quantity}` in the source. -/
def mkLine (p : Product) (q : Int) : CartLine :=
  ⟨p.id, p.name, p.price, p.imageUrl, p.extra, q⟩

/-- `addToCart(product)`: if a line with the product's id exists, map over the
lines incrementing the matching line's quantity by 1; otherwise append a fresh
line with quantity 1. -/
def addToCart (product : Product) (prevItems : List CartLine) : List CartLine :=
  match prevItems.find? (fun item => item.id == product.id) with
  | some _ =>
      prevItems.map (fun item =>
        if item.id == product.id then { item with quantity := item.quantity + 1 } else item)
  | none => prevItems ++ [mkLine product 1]

/-- `removeFromCart(productId)`: filter out the lines with the matching id. -/
def removeFromCart (productId : String) (prevItems : List CartLine) : List CartLine :=
  prevItems.filter (fun item => item.id != productId)

/-- `updateQuantity(productId, quantity)`: for a non-positive quantity delegate
to `removeFromCart`; otherwise map over the lines setting the matching line's
quantity. -/
def updateQuantity (productId : String) (quantity : Int)
    (prevItems : List CartLine) : List CartLine :=
  if quantity ≤ 0 then removeFromCart productId prevItems
  else
    prevItems.map (fun item =>
      if item.id == productId then { item with quantity := quantity } else item)

/-- `clearCart()`: reset to the empty list. -/
def clearCart (_prevItems : List CartLine) : List CartLine := []

/-- `getCartTotal()`: left fold accumulating `price * quantity` from 0. -/
def getCartTotal (cartItems : List CartLine) : ℚ :=
  cartItems.foldl (fun total item => total + item.price * (item.quantity : ℚ)) 0

/-- `getCartItemsCount()`: left fold accumulating `quantity` from 0. -/
def getCartItemsCount (cartItems : List CartLine) : Int :=
  cartItems.foldl (fun count item => count + item.quantity) 0

/-- `n` successive `addToCart` calls with the same product descriptor. -/
def addNTimes (p : Product) : Nat → List CartLine → List CartLine
  | 0, cart => cart
  | n + 1, cart => addNTimes p n (addToCart p cart)

/-- The lines of `cart` whose id is `id`. -/
def linesFor (id : String) (cart : List CartLine) : List CartLine :=
  cart.filter (fun item => item.id == id)

/-- One mutating cart-store operation, for stating reachability. -/
inductive CartOp where
  | add (p : Product)
  | remove (id : String)
  | update (id : String) (q : Int)
  | clear
deriving Repr

/-- Apply one mutating operation to the in-memory cart. -/
def applyOp (cart : List CartLine) : CartOp → List CartLine
  | .add p => addToCart p cart
  | .remove id => removeFromCart id cart
  | .update id q => updateQuantity id q cart
  | .clear => clearCart cart

/-- Apply a sequence of mutating operations, in call order. -/
def applyOps (cart : List CartLine) (ops : List CartOp) : List CartLine :=
  ops.foldl applyOp cart

/-- The cart-store invariant: at most one line per distinct productId, and
every line's quantity is a positive integer. -/
def CartWF (cart : List CartLine) : Prop :=
  cart.Pairwise (fun a b => a.id ≠ b.id) ∧ ∀ l ∈ cart, 1 ≤ l.quantity

/-- A value held in durable storage for some key: either a valid serialized
cart snapshot, or corrupt data on which `JSON.parse` throws. -/
inductive StoredVal where
  | valid (items : List CartLine)
  | corrupt
deriving DecidableEq, Repr

/-- Durable storage contents: a partial map from keys to stored values. -/
abbrev Storage := String → Option StoredVal

/-- `localStorage.setItem(k, v)` on storage contents. -/
def setItem (s : Storage) (k : String) (v : StoredVal) : Storage :=
  fun k' => if k' = k then some v else s k'

/-- `localStorage.removeItem(k)` on storage contents. -/
def removeItem (s : Storage) (k : String) : Storage :=
  fun k' => if k' = k then none else s k'

/-- `JSON.parse` on a stored value: yields the items of a valid snapshot and
throws (returns `none`) on corrupt data. -/
def parseSnapshot : StoredVal → Option (List CartLine)
  | .valid items => some items
  | .corrupt => none

/-- The parsed `user` record in durable storage, as seen by `getStorageKey`:
missing (`JSON.parse('null')` yields `null`), corrupt (parse throws), or a
user object with an optional `id` field. -/
inductive UserEntry where
  | absent
  | corrupt
  | user (id : Option String)
deriving DecidableEq, Repr

/-- `getStorageKey()`: `cart_user_<id>` when a user with a truthy `id` is
stored, else `cart_guest`; a parse failure is caught and yields `cart_guest`. -/
def getStorageKey : UserEntry → String
  | .user (some uid) => if uid = "" then "cart_guest" else "cart_user_" ++ uid
  | _ => "cart_guest"

/-- The legacy unscoped storage key `'cart'` migrated at load. -/
def legacyKey : String := "cart"

/-- The environment a load or persist runs against: the storage contents plus
whether the primitive storage reads and writes throw. -/
structure StorageEnv where
  contents : Storage
  readFails : Bool
  writeFails : Bool

/-- `loadCartFromStorage()`: read the per-identity key; if absent and the
legacy `cart` key is present, copy it to the per-identity key, remove the
legacy key and adopt the parsed legacy snapshot; otherwise parse the
per-identity snapshot, or fall back to the empty cart.  Any throw inside the
`try` (unavailable storage, failing write, corrupt snapshot) is caught and
sets the empty cart, keeping whatever storage mutations already happened.
Returns the storage contents after the call and the new in-memory cart. -/
def loadCartFromStorage (user : UserEntry) (env : StorageEnv) :
    Storage × List CartLine :=
  let key := getStorageKey user
  if env.readFails then (env.contents, [])
  else
    match env.contents key with
    | none =>
        match env.contents legacyKey with
        | some legacy =>
            if env.writeFails then (env.contents, [])
            else
              let s' := removeItem (setItem env.contents key legacy) legacyKey
              match parseSnapshot legacy with
              | some items => (s', items)
              | none => (s', [])
        | none => (env.contents, [])
    | some perUser =>
        match parseSnapshot perUser with
        | some items => (env.contents, items)
        | none => (env.contents, [])

/-- The persist effect: serialize the whole cart and overwrite the
per-identity key; a failing write is swallowed and the in-memory cart is kept
as is.  Returns the storage contents after the call and the in-memory cart. -/
def persistCart (user : UserEntry) (env : StorageEnv)
    (cartItems : List CartLine) : Storage × List CartLine :=
  if env.writeFails then (env.contents, cartItems)
  else (setItem env.contents (getStorageKey user) (.valid cartItems), cartItems)

/-- The outcome of the order-creation endpoint call made by checkout. -/
inductive OrderResult where
  | success
  | failure
deriving DecidableEq, Repr

/-- The observable outcome of one checkout submission: the cart afterwards,
whether `clearCart()` was called, and whether the endpoint was called. -/
structure SubmitOutcome where
  cartItems : List CartLine
  clearCalled : Bool
  orderAttempted : Bool
deriving DecidableEq, Repr

/-- `handleSubmit`: an empty cart aborts before calling the endpoint; else the
order is created, and on success the cart is cleared while on failure the
error is caught and the cart is left as it was. -/
def handleSubmit (cartItems : List CartLine) (result : OrderResult) :
    SubmitOutcome :=
  if cartItems.isEmpty then
    { cartItems := cartItems, clearCalled := false, orderAttempted := false }
  else
    match result with
    | .success =>
        { cartItems := clearCart cartItems, clearCalled := true, orderAttempted := true }
    | .failure =>
        { cartItems := cartItems, clearCalled := false, orderAttempted := true }

theorem find?_eq_none_of_linesFor_nil {id : String} {cart : List CartLine}
    (h : linesFor id cart = []) : cart.find? (fun item => item.id == id) = none := by
  rw [List.find?_eq_none]
  intro x hx
  have := List.filter_eq_nil_iff.mp h x hx
  simpa using this

theorem linesFor_map_quantity (id : String) (f : CartLine → Int)
    (cart : List CartLine) :
    linesFor id (cart.map (fun item =>
        if item.id == id then { item with quantity := f item } else item)) =
      (linesFor id cart).map (fun item => { item with quantity := f item }) := by
  induction cart with
  | nil => rfl
  | cons a l ih =>
      by_cases ha : a.id = id
      · simp [linesFor, List.filter_cons, ha] at ih ⊢
        exact ih
      · simp [linesFor, List.filter_cons, ha] at ih ⊢
        exact ih

theorem linesFor_append (id : String) (c₁ c₂ : List CartLine) :
    linesFor id (c₁ ++ c₂) = linesFor id c₁ ++ linesFor id c₂ := by
  simp [linesFor, List.filter_append]

theorem addToCart_of_absent {p : Product} {cart : List CartLine}
    (h : linesFor p.id cart = []) :
    addToCart p cart = cart ++ [mkLine p 1] := by
  unfold addToCart
  rw [find?_eq_none_of_linesFor_nil h]

theorem addToCart_of_present {p : Product} {cart : List CartLine}
    (h : (cart.find? (fun item => item.id == p.id)).isSome) :
    addToCart p cart = cart.map (fun item =>
      if item.id == p.id then { item with quantity := item.quantity + 1 } else item) := by
  unfold addToCart
  obtain ⟨l, hl⟩ := Option.isSome_iff_exists.mp h
  rw [hl]

theorem linesFor_addToCart_same (p : Product) (cart : List CartLine) {l : CartLine}
    (h : linesFor p.id cart = [l]) :
    linesFor p.id (addToCart p cart) = [{ l with quantity := l.quantity + 1 }] := by
  have hfind : (cart.find? (fun item => item.id == p.id)).isSome := by
    by_contra hnone
    have h0 : cart.find? (fun item => item.id == p.id) = none :=
      Option.not_isSome_iff_eq_none.mp hnone
    have : ∀ x ∈ cart, ¬ (x.id == p.id) = true := List.find?_eq_none.mp h0
    have hl : l ∈ linesFor p.id cart := h ▸ List.mem_singleton.mpr rfl
    have hl2 := List.mem_filter.mp hl
    exact this l hl2.1 hl2.2
  rw [addToCart_of_present hfind,
    linesFor_map_quantity p.id (fun item => item.quantity + 1) cart, h]
  rfl

/-- After `n ≥ 1` additions starting from a cart with no line for the
product's id: exactly one line for the id, with quantity `n`. -/
theorem addNTimes_linesFor (p : Product) (cart : List CartLine)
    (h : linesFor p.id cart = []) :
    ∀ n : Nat, 1 ≤ n →
      linesFor p.id (addNTimes p n cart) = [{ mkLine p 1 with quantity := (n : Int) }] := by
  have key : ∀ n : Nat, ∀ c : List CartLine, ∀ l : CartLine,
      linesFor p.id c = [l] →
      linesFor p.id (addNTimes p n c) = [{ l with quantity := l.quantity + n }] := by
    intro n
    induction n with
    | zero =>
        intro c l hc
        simpa [addNTimes] using hc
    | succ m ih =>
        intro c l hc
        have step := linesFor_addToCart_same p c hc
        have := ih (addToCart p c) { l with quantity := l.quantity + 1 } step
        rw [addNTimes] at *
        rw [this]
        congr 1
        simp
        ring
  intro n hn
  obtain ⟨m, rfl⟩ := Nat.exists_eq_add_of_le hn
  have h1 : linesFor p.id (addToCart p cart) = [mkLine p 1] := by
    rw [addToCart_of_absent h, linesFor_append, h]
    simp [linesFor, mkLine]
  have := key m (addToCart p cart) (mkLine p 1) h1
  have hiter : addNTimes p (1 + m) cart = addNTimes p m (addToCart p cart) := by
    have : 1 + m = m + 1 := Nat.add_comm 1 m
    rw [this, addNTimes]
  rw [hiter, this]
  congr 2

theorem find?_map_preserve (id : String) (f : CartLine → CartLine)
    (hf : ∀ x, (f x).id = x.id) (cart : List CartLine) :
    (cart.map f).find? (fun item => item.id == id) =
      (cart.find? (fun item => item.id == id)).map f := by
  rw [List.find?_map]
  have hpred : ((fun item : CartLine => item.id == id) ∘ f) =
      (fun item : CartLine => item.id == id) := by
    funext x
    simp [Function.comp, hf]
  rw [hpred]

theorem getStorageKey_ne_legacyKey (user : UserEntry) :
    getStorageKey user ≠ legacyKey := by
  cases user with
  | user uid =>
      cases uid with
      | none => decide
      | some uid =>
          unfold getStorageKey legacyKey
          by_cases hu : uid = ""
          · simp [hu]
          · simp only [hu, if_false]
            intro h
            have h2 : ("cart_user_" ++ uid).length = ("cart" : String).length :=
              congrArg String.length h
            rw [String.length_append] at h2
            have e1 : ("cart_user_" : String).length = 10 := rfl
            have e2 : ("cart" : String).length = 4 := rfl
            rw [e1, e2] at h2
            omega
  | absent => decide
  | corrupt => decide

theorem foldl_add_eq_sum {α β : Type} [AddCommMonoid β] (f : α → β) :
    ∀ (l : List α) (a : β), l.foldl (fun acc x => acc + f x) a = a + (l.map f).sum := by
  intro l
  induction l with
  | nil => intro a; simp
  | cons x xs ih =>
      intro a
      rw [List.foldl_cons, ih (a + f x), List.map_cons, List.sum_cons, add_assoc]

theorem removeFromCart_wf {id : String} {cart : List CartLine} (h : CartWF cart) :
    CartWF (removeFromCart id cart) := by
  constructor
  · exact h.1.sublist (List.filter_sublist cart)
  · intro l hl
    exact h.2 l (List.mem_filter.mp hl).1

theorem map_set_quantity_wf {cart : List CartLine} (h : CartWF cart)
    (id : String) (f : CartLine → Int) (hf : ∀ x ∈ cart, 1 ≤ x.quantity → 1 ≤ f x) :
    CartWF (cart.map (fun item =>
      if item.id == id then { item with quantity := f item } else item)) := by
  have hid : ∀ x : CartLine,
      ((fun item =>
        if item.id == id then { item with quantity := f item } else item) x).id = x.id := by
    intro x
    by_cases hx : x.id == id <;> simp [hx]
  constructor
  · rw [List.pairwise_map]
    exact h.1.imp (fun hab => by rw [hid, hid]; exact hab)
  · intro l hl
    obtain ⟨x, hx, rfl⟩ := List.mem_map.mp hl
    by_cases hxid : x.id == id
    · simpa [hxid] using hf x hx (h.2 x hx)
    · simpa [hxid] using h.2 x hx

theorem applyOp_wf {cart : List CartLine} (h : CartWF cart) (op : CartOp) :
    CartWF (applyOp cart op) := by
  cases op with
  | add p =>
      show CartWF (addToCart p cart)
      cases hfind : cart.find? (fun item => item.id == p.id) with
      | some l0 =>
          rw [addToCart_of_present (by rw [hfind]; rfl)]
          exact map_set_quantity_wf h p.id (fun item => item.quantity + 1)
            (by intro x _ hx; show (1 : Int) ≤ x.quantity + 1; omega)
      | none =>
          have habs : addToCart p cart = cart ++ [mkLine p 1] := by
            unfold addToCart
            rw [hfind]
          rw [habs]
          constructor
          · rw [List.pairwise_append]
            refine ⟨h.1, List.pairwise_singleton _ _, ?_⟩
            intro a ha b hb
            have hb1 : b = mkLine p 1 := List.mem_singleton.mp hb
            have := List.find?_eq_none.mp hfind a ha
            subst hb1
            simpa [mkLine] using this
          · intro l hl
            rcases List.mem_append.mp hl with hl | hl
            · exact h.2 l hl
            · rw [List.mem_singleton.mp hl]
              simp [mkLine]
  | remove id => exact removeFromCart_wf h
  | update id q =>
      show CartWF (updateQuantity id q cart)
      unfold updateQuantity
      by_cases hq : q ≤ 0
      · rw [if_pos hq]
        exact removeFromCart_wf h
      · rw [if_neg hq]
        exact map_set_quantity_wf h id (fun _ => q)
          (by intro x _ _; show (1 : Int) ≤ q; omega)
  | clear => exact ⟨List.Pairwise.nil, by simp [applyOp, clearCart]⟩

theorem applyOps_wf : ∀ (ops : List CartOp) (cart : List CartLine),
    CartWF cart → CartWF (applyOps cart ops) := by
  intro ops
  induction ops with
  | nil => intro cart h; exact h
  | cons op rest ih =>
      intro cart h
      exact ih (applyOp cart op) (applyOp_wf h op)

/-- Claim C2: every cart reachable from the empty cart by any sequence of
`addToCart`, `removeFromCart`, `updateQuantity` and `clearCart` calls has at
most one line per distinct productId and every line's quantity is a positive
integer. -/
theorem cart_invariant_reachable (ops : List CartOp) :
    CartWF (applyOps [] ops) :=
  applyOps_wf ops [] ⟨List.Pairwise.nil, by simp⟩

/-- Claim C1: `addToCart` increments an existing matching line's quantity by
exactly 1 adding no line, and otherwise appends a new line with quantity 1;
hence `n ≥ 1` additions of the same product into a cart with no line for its
id leave exactly one line for that id, with quantity `n`. -/
theorem addToCart_spec (p : Product) (cart : List CartLine) :
    (∀ l0, cart.find? (fun item => item.id == p.id) = some l0 →
      (addToCart p cart).length = cart.length ∧
      (addToCart p cart).find? (fun item => item.id == p.id) =
        some { l0 with quantity := l0.quantity + 1 }) ∧
    (cart.find? (fun item => item.id == p.id) = none →
      addToCart p cart = cart ++ [mkLine p 1]) ∧
    (linesFor p.id cart = [] → ∀ n : Nat, 1 ≤ n →
      linesFor p.id (addNTimes p n cart) =
        [{ mkLine p 1 with quantity := (n : Int) }]) := by
  refine ⟨?_, ?_, addNTimes_linesFor p cart⟩
  · intro l0 hl0
    have hsome : (cart.find? (fun item => item.id == p.id)).isSome := by
      rw [hl0]; rfl
    rw [addToCart_of_present hsome]
    constructor
    · exact List.length_map cart _
    · rw [find?_map_preserve p.id _
        (by intro x; by_cases hx : x.id == p.id <;> simp [hx]) cart, hl0]
      have hp := List.find?_some hl0
      simp only [] at hp
      have hp' : l0.id = p.id := by simpa using hp
      simp [hp']
  · intro hnone
    unfold addToCart
    rw [hnone]

/-- Witness for C1: a cart holding id "1" at quantity 2 gains no line and
moves to quantity 3; an add into the empty cart appends the quantity-1 line;
three adds of the same product from empty give one line of quantity 3. -/
theorem addToCart_spec_witness :
    (addToCart ⟨"1", "A", 10, none, []⟩ [⟨"1", "A", 10, none, [], 2⟩]).length = 1 ∧
    (addToCart ⟨"1", "A", 10, none, []⟩ [⟨"1", "A", 10, none, [], 2⟩]).find?
      (fun item => item.id == "1") = some ⟨"1", "A", 10, none, [], 3⟩ ∧
    addToCart ⟨"2", "B", 5, none, []⟩ [] = [⟨"2", "B", 5, none, [], 1⟩] ∧
    linesFor "1" (addNTimes ⟨"1", "A", 10, none, []⟩ 3 []) =
      [⟨"1", "A", 10, none, [], 3⟩] := by
  have h1 := (addToCart_spec ⟨"1", "A", 10, none, []⟩
    [⟨"1", "A", 10, none, [], 2⟩]).1 ⟨"1", "A", 10, none, [], 2⟩ rfl
  have h2 := (addToCart_spec ⟨"2", "B", 5, none, []⟩ []).2.1 rfl
  have h3 := (addToCart_spec ⟨"1", "A", 10, none, []⟩ []).2.2 rfl 3 (by omega)
  exact ⟨h1.1, h1.2, h2, h3⟩

/-- Claim C3: `updateQuantity(id, q)` with `q ≤ 0` produces exactly the cart
`removeFromCart(id)` produces; with `q > 0` it is the identity on a cart with
no line for `id`, and otherwise sets the matching line's quantity to `q`. -/
theorem updateQuantity_spec (cart : List CartLine) (id : String) (q : Int) :
    (q ≤ 0 → updateQuantity id q cart = removeFromCart id cart) ∧
    (0 < q →
      ((∀ l ∈ cart, l.id ≠ id) → updateQuantity id q cart = cart) ∧
      ∀ l0, cart.find? (fun item => item.id == id) = some l0 →
        (updateQuantity id q cart).find? (fun item => item.id == id) =
          some { l0 with quantity := q }) := by
  constructor
  · intro hq
    unfold updateQuantity
    rw [if_pos hq]
  · intro hq
    have hq' : ¬ q ≤ 0 := by omega
    constructor
    · intro habsent
      unfold updateQuantity
      rw [if_neg hq']
      have : ∀ x ∈ cart,
          (if x.id == id then { x with quantity := q } else x) = x := by
        intro x hx
        have : ¬ (x.id == id) = true := by
          simpa using habsent x hx
        simp [this]
      rw [List.map_congr_left this, List.map_id']
    · intro l0 hl0
      unfold updateQuantity
      rw [if_neg hq']
      rw [find?_map_preserve id _
        (by intro x; by_cases hx : x.id == id <;> simp [hx]) cart, hl0]
      have hp := List.find?_some hl0
      simp only [] at hp
      have hp' : l0.id = id := by simpa using hp
      simp [hp']

/-- Witness for C3: with a one-line cart of id "1" and quantity 2,
`updateQuantity "1" 0` equals `removeFromCart "1"`, `updateQuantity "2" 5`
leaves the cart unchanged, and `updateQuantity "1" 5` sets the quantity
to 5. -/
theorem updateQuantity_spec_witness :
    updateQuantity "1" 0 [⟨"1", "A", 10, none, [], 2⟩] =
      removeFromCart "1" [⟨"1", "A", 10, none, [], 2⟩] ∧
    updateQuantity "2" 5 [⟨"1", "A", 10, none, [], 2⟩] =
      [⟨"1", "A", 10, none, [], 2⟩] ∧
    (updateQuantity "1" 5 [⟨"1", "A", 10, none, [], 2⟩]).find?
      (fun item => item.id == "1") = some ⟨"1", "A", 10, none, [], 5⟩ := by
  refine ⟨(updateQuantity_spec [⟨"1", "A", 10, none, [], 2⟩] "1" 0).1 (by omega),
    ((updateQuantity_spec [⟨"1", "A", 10, none, [], 2⟩] "2" 5).2 (by omega)).1 ?_,
    ((updateQuantity_spec [⟨"1", "A", 10, none, [], 2⟩] "1" 5).2 (by omega)).2
      ⟨"1", "A", 10, none, [], 2⟩ rfl⟩
  intro l hl
  rw [List.mem_singleton.mp hl]
  decide

/-- Claim C4: `getCartTotal` returns the sum over all lines of
`price * quantity` and `getCartItemsCount` the sum over all lines of
`quantity`; when every line has a non-negative price and quantity ≥ 1, both
are non-negative. -/
theorem cart_totals_spec (cart : List CartLine) :
    getCartTotal cart = (cart.map (fun l => l.price * (l.quantity : ℚ))).sum ∧
    getCartItemsCount cart = (cart.map (fun l => l.quantity)).sum ∧
    ((∀ l ∈ cart, 0 ≤ l.price ∧ 1 ≤ l.quantity) →
      0 ≤ getCartTotal cart ∧ 0 ≤ getCartItemsCount cart) := by
  have ht : getCartTotal cart = (cart.map (fun l => l.price * (l.quantity : ℚ))).sum := by
    unfold getCartTotal
    rw [foldl_add_eq_sum (fun l : CartLine => l.price * (l.quantity : ℚ)) cart 0,
      zero_add]
  have hc : getCartItemsCount cart = (cart.map (fun l => l.quantity)).sum := by
    unfold getCartItemsCount
    rw [foldl_add_eq_sum (fun l : CartLine => l.quantity) cart 0, zero_add]
  refine ⟨ht, hc, ?_⟩
  intro hpre
  constructor
  · rw [ht]
    apply List.sum_nonneg
    intro x hx
    obtain ⟨l, hl, rfl⟩ := List.mem_map.mp hx
    have h1 := (hpre l hl).1
    have h2 : (0 : ℚ) ≤ (l.quantity : ℚ) := by
      have := (hpre l hl).2
      exact_mod_cast le_trans (by omega : (0 : Int) ≤ l.quantity) le_rfl
    exact mul_nonneg h1 h2
  · rw [hc]
    apply List.sum_nonneg
    intro x hx
    obtain ⟨l, hl, rfl⟩ := List.mem_map.mp hx
    have := (hpre l hl).2
    omega

/-- Witness for C4 on a two-line cart with non-negative prices and positive
quantities. -/
theorem cart_totals_spec_witness :
    getCartTotal [⟨"1", "A", 10, none, [], 2⟩, ⟨"2", "B", 5, none, [], 3⟩] =
      ([⟨"1", "A", 10, none, [], 2⟩, ⟨"2", "B", 5, none, [], 3⟩].map
        (fun l : CartLine => l.price * (l.quantity : ℚ))).sum ∧
    0 ≤ getCartTotal [⟨"1", "A", 10, none, [], 2⟩, ⟨"2", "B", 5, none, [], 3⟩] ∧
    0 ≤ getCartItemsCount [⟨"1", "A", 10, none, [], 2⟩, ⟨"2", "B", 5, none, [], 3⟩] := by
  have h := cart_totals_spec [⟨"1", "A", 10, none, [], 2⟩, ⟨"2", "B", 5, none, [], 3⟩]
  have hpre : ∀ l ∈ [(⟨"1", "A", 10, none, [], 2⟩ : CartLine),
      ⟨"2", "B", 5, none, [], 3⟩], 0 ≤ l.price ∧ 1 ≤ l.quantity := by
    intro l hl
    rcases List.mem_cons.mp hl with h1 | h1
    · rw [h1]; constructor <;> norm_num
    · rw [List.mem_singleton.mp h1]; constructor <;> norm_num
  exact ⟨h.1, (h.2.2 hpre).1, (h.2.2 hpre).2⟩

/-- Claim C10: when a line with the product's id already exists, `addToCart`
keeps the length and the positional order, keeps every field of every line
except the matching line's quantity (incremented by 1), and discards the
descriptor's field values. -/
theorem addToCart_frame (p : Product) (cart : List CartLine)
    (h : (cart.find? (fun item => item.id == p.id)).isSome) :
    (addToCart p cart).length = cart.length ∧
    ∀ i : Nat, i < cart.length →
      ∃ old new, cart[i]? = some old ∧ (addToCart p cart)[i]? = some new ∧
        new.id = old.id ∧ new.name = old.name ∧ new.price = old.price ∧
        new.imageUrl = old.imageUrl ∧ new.extra = old.extra ∧
        (old.id = p.id → new.quantity = old.quantity + 1) ∧
        (old.id ≠ p.id → new = old) := by
  rw [addToCart_of_present h]
  refine ⟨List.length_map cart _, ?_⟩
  intro i hi
  have hold : cart[i]? = some cart[i] := List.getElem?_eq_getElem hi
  refine ⟨cart[i],
    if cart[i].id == p.id then { cart[i] with quantity := cart[i].quantity + 1 }
      else cart[i], hold, ?_, ?_⟩
  · rw [List.getElem?_map, hold]
    rfl
  · by_cases hx : cart[i].id = p.id
    · simp [hx]
    · have hx' : (cart[i].id == p.id) = false := by simpa using hx
      simp [hx', hx]

/-- Witness for C10: adding id "1" to a cart holding ids "1" and "2". -/
theorem addToCart_frame_witness :
    (addToCart ⟨"1", "Z", 99, none, []⟩
      [⟨"1", "A", 10, none, [], 2⟩, ⟨"2", "B", 5, none, [], 3⟩]).length = 2 ∧
    ∃ old new,
      [(⟨"1", "A", 10, none, [], 2⟩ : CartLine), ⟨"2", "B", 5, none, [], 3⟩][0]? =
        some old ∧
      (addToCart ⟨"1", "Z", 99, none, []⟩
        [⟨"1", "A", 10, none, [], 2⟩, ⟨"2", "B", 5, none, [], 3⟩])[0]? = some new ∧
      new.id = old.id ∧ new.name = old.name ∧ new.price = old.price ∧
      new.imageUrl = old.imageUrl ∧ new.extra = old.extra ∧
      (old.id = "1" → new.quantity = old.quantity + 1) ∧
      (old.id ≠ "1" → new = old) := by
  have h := addToCart_frame ⟨"1", "Z", 99, none, []⟩
    [⟨"1", "A", 10, none, [], 2⟩, ⟨"2", "B", 5, none, [], 3⟩] rfl
  exact ⟨h.1, h.2 0 (by decide)⟩

/-- Claim C5: storage failure never escapes the store.  A failing read leaves
the storage untouched and initializes the empty cart; a corrupt per-identity
snapshot initializes the empty cart; a failing write is swallowed, leaving the
storage untouched; and the in-memory cart after a persist is always exactly
the cart that was to be written, whether or not the write succeeded. -/
theorem storage_failure_spec (user : UserEntry) (env : StorageEnv)
    (items : List CartLine) :
    (env.readFails = true → loadCartFromStorage user env = (env.contents, [])) ∧
    (env.contents (getStorageKey user) = some StoredVal.corrupt →
      (loadCartFromStorage user env).2 = []) ∧
    (env.writeFails = true → persistCart user env items = (env.contents, items)) ∧
    (persistCart user env items).2 = items := by
  refine ⟨?_, ?_, ?_, ?_⟩
  · intro hr
    simp [loadCartFromStorage, hr]
  · intro hcorrupt
    by_cases hr : env.readFails
    · simp [loadCartFromStorage, hr]
    · simp [loadCartFromStorage, hr, hcorrupt, parseSnapshot]
  · intro hw
    simp [persistCart, hw]
  · by_cases hw : env.writeFails <;> simp [persistCart, hw]

/-- Witness for C5: a guest environment whose per-identity key holds corrupt
data, a read-failing environment, and a write-failing persist. -/
theorem storage_failure_spec_witness :
    loadCartFromStorage UserEntry.absent
      ⟨fun _ => none, true, false⟩ = ((fun _ => none : Storage), []) ∧
    (loadCartFromStorage UserEntry.absent
      ⟨fun k => if k = "cart_guest" then some StoredVal.corrupt else none,
        false, false⟩).2 = [] ∧
    persistCart UserEntry.absent ⟨fun _ => none, false, true⟩
      [⟨"1", "A", 10, none, [], 2⟩] =
      ((fun _ => none : Storage), [⟨"1", "A", 10, none, [], 2⟩]) ∧
    (persistCart UserEntry.absent ⟨fun _ => none, false, false⟩
      [⟨"1", "A", 10, none, [], 2⟩]).2 = [⟨"1", "A", 10, none, [], 2⟩] := by
  refine ⟨(storage_failure_spec UserEntry.absent ⟨fun _ => none, true, false⟩ []).1 rfl,
    (storage_failure_spec UserEntry.absent
      ⟨fun k => if k = "cart_guest" then some StoredVal.corrupt else none,
        false, false⟩ []).2.1 ?_,
    (storage_failure_spec UserEntry.absent ⟨fun _ => none, false, true⟩
      [⟨"1", "A", 10, none, [], 2⟩]).2.2.1 rfl,
    (storage_failure_spec UserEntry.absent ⟨fun _ => none, false, false⟩
      [⟨"1", "A", 10, none, [], 2⟩]).2.2.2⟩
  rfl

/-- Claim C6: when the per-identity key is empty and the legacy `cart` key
holds a valid snapshot, loading adopts the legacy snapshot as the cart, copies
it to the per-identity key, removes the legacy key, and a second load against
the resulting storage performs no migration: it returns the same storage and
the same cart, read directly from the per-identity key. -/
theorem legacy_migration_spec (user : UserEntry) (env : StorageEnv)
    (legacy : List CartLine)
    (hr : env.readFails = false) (hw : env.writeFails = false)
    (h1 : env.contents (getStorageKey user) = none)
    (h2 : env.contents legacyKey = some (StoredVal.valid legacy)) :
    (loadCartFromStorage user env).2 = legacy ∧
    (loadCartFromStorage user env).1 (getStorageKey user) =
      some (StoredVal.valid legacy) ∧
    (loadCartFromStorage user env).1 legacyKey = none ∧
    loadCartFromStorage user ⟨(loadCartFromStorage user env).1, false, false⟩ =
      ((loadCartFromStorage user env).1, legacy) := by
  have hk := getStorageKey_ne_legacyKey user
  have hload : loadCartFromStorage user env =
      (removeItem (setItem env.contents (getStorageKey user)
        (StoredVal.valid legacy)) legacyKey, legacy) := by
    simp [loadCartFromStorage, hr, h1, h2, hw, parseSnapshot]
  rw [hload]
  have hkey : removeItem (setItem env.contents (getStorageKey user)
      (StoredVal.valid legacy)) legacyKey (getStorageKey user) =
      some (StoredVal.valid legacy) := by
    simp [removeItem, setItem, hk]
  refine ⟨rfl, hkey, ?_, ?_⟩
  · simp [removeItem]
  · simp [loadCartFromStorage, hkey, parseSnapshot]

/-- Witness for C6: a guest environment whose only entry is a valid one-line
snapshot under the legacy `cart` key. -/
theorem legacy_migration_spec_witness :
    (loadCartFromStorage UserEntry.absent
      ⟨fun k => if k = "cart" then
          some (StoredVal.valid [⟨"1", "A", 10, none, [], 2⟩]) else none,
        false, false⟩).2 = [⟨"1", "A", 10, none, [], 2⟩] ∧
    (loadCartFromStorage UserEntry.absent
      ⟨fun k => if k = "cart" then
          some (StoredVal.valid [⟨"1", "A", 10, none, [], 2⟩]) else none,
        false, false⟩).1 "cart_guest" =
      some (StoredVal.valid [⟨"1", "A", 10, none, [], 2⟩]) ∧
    (loadCartFromStorage UserEntry.absent
      ⟨fun k => if k = "cart" then
          some (StoredVal.valid [⟨"1", "A", 10, none, [], 2⟩]) else none,
        false, false⟩).1 "cart" = none := by
  have h := legacy_migration_spec UserEntry.absent
    ⟨fun k => if k = "cart" then
        some (StoredVal.valid [⟨"1", "A", 10, none, [], 2⟩]) else none,
      false, false⟩ [⟨"1", "A", 10, none, [], 2⟩] rfl rfl (by rfl) (by rfl)
  exact ⟨h.1, h.2.1, h.2.2.1⟩

/-- Claim C7: the checkout submission calls `clearCart()` exactly when the
order-creation endpoint call was made and succeeded; on success with a
non-empty cart the cart becomes empty, and on a failed creation the cart is
left unchanged. -/
theorem checkout_clear_spec (cart : List CartLine) (r : OrderResult) :
    ((handleSubmit cart r).clearCalled = true ↔
      (handleSubmit cart r).orderAttempted = true ∧ r = OrderResult.success) ∧
    (cart ≠ [] → r = OrderResult.success → (handleSubmit cart r).cartItems = []) ∧
    (r = OrderResult.failure → (handleSubmit cart r).cartItems = cart) := by
  by_cases hc : cart.isEmpty
  · have hc' : cart = [] := List.isEmpty_iff.mp hc
    cases r <;> simp [handleSubmit, hc, hc', clearCart]
  · cases r <;> simp [handleSubmit, hc, clearCart]

/-- Witness for C7: a one-line cart cleared on success and kept on failure. -/
theorem checkout_clear_spec_witness :
    (handleSubmit [⟨"1", "A", 10, none, [], 2⟩] OrderResult.success).cartItems = [] ∧
    (handleSubmit [⟨"1", "A", 10, none, [], 2⟩] OrderResult.failure).cartItems =
      [⟨"1", "A", 10, none, [], 2⟩] ∧
    ((handleSubmit [⟨"1", "A", 10, none, [], 2⟩] OrderResult.success).clearCalled = true ↔
      (handleSubmit [⟨"1", "A", 10, none, [], 2⟩]
        OrderResult.success).orderAttempted = true ∧
      OrderResult.success = OrderResult.success) :=
  ⟨(checkout_clear_spec [⟨"1", "A", 10, none, [], 2⟩] OrderResult.success).2.1
      (by simp) rfl,
    (checkout_clear_spec [⟨"1", "A", 10, none, [], 2⟩] OrderResult.failure).2.2 rfl,
    (checkout_clear_spec [⟨"1", "A", 10, none, [], 2⟩] OrderResult.success).1⟩

/-- Claim C9 fails as stated: the per-identity storage key for user id "1" is
`cart_user_1`, not `identity:1`, and the guest key is `cart_guest`, not
`guest`. -/
theorem storage_key_counterexample :
    getStorageKey (UserEntry.user (some "1")) = "cart_user_1" ∧
    getStorageKey (UserEntry.user (some "1")) ≠ "identity:1" ∧
    getStorageKey UserEntry.absent = "cart_guest" ∧
    getStorageKey UserEntry.absent ≠ "guest" := by
  refine ⟨?_, ?_, rfl, ?_⟩ <;> decide

/-- Claim C9 (amended): a logged-in user with a truthy identifier `uid` gets
the key `cart_user_<uid>`, every other identity state gets the fixed key
`cart_guest`, the legacy unscoped key is `cart`, and a successful persist
stores the snapshot under the per-identity key. -/
theorem storage_key_spec (uid : String) (env : StorageEnv)
    (items : List CartLine) (hu : uid ≠ "") (hw : env.writeFails = false) :
    getStorageKey (UserEntry.user (some uid)) = "cart_user_" ++ uid ∧
    getStorageKey UserEntry.absent = "cart_guest" ∧
    getStorageKey UserEntry.corrupt = "cart_guest" ∧
    getStorageKey (UserEntry.user none) = "cart_guest" ∧
    legacyKey = "cart" ∧
    (persistCart (UserEntry.user (some uid)) env items).1 ("cart_user_" ++ uid) =
      some (StoredVal.valid items) := by
  have hkey : getStorageKey (UserEntry.user (some uid)) = "cart_user_" ++ uid := by
    simp [getStorageKey, hu]
  refine ⟨hkey, rfl, rfl, rfl, rfl, ?_⟩
  simp [persistCart, hw, hkey, setItem]

/-- Witness for C9 (amended) at user id "1" with an empty storage. -/
theorem storage_key_spec_witness :
    getStorageKey (UserEntry.user (some "1")) = "cart_user_" ++ "1" ∧
    (persistCart (UserEntry.user (some "1")) ⟨fun _ => none, false, false⟩
      [⟨"1", "A", 10, none, [], 2⟩]).1 ("cart_user_" ++ "1") =
      some (StoredVal.valid [⟨"1", "A", 10, none, [], 2⟩]) := by
  have h := storage_key_spec "1" ⟨fun _ => none, false, false⟩
    [⟨"1", "A", 10, none, [], 2⟩] (by decide) rfl
  exact ⟨h.1, h.2.2.2.2.2⟩

end SkCart
